import Mathlib

/-!
Verification of the task-scheduler program `scheduler.py`.

The program stores a list of job records in a YAML file and periodically
executes jobs whose recurrence rule ("daily" or "weekly") matches the
current time.  The store/CLI operations (`load_tasks`, `add_task_interactive`,
`remove_task`, `run_task`, `schedule_tasks`, `test_task`, `main`) are embedded
directly from the source.  The source delegates recurrence evaluation and
once-per-occurrence firing to the external `schedule` library
(`schedule.every().day.at(...)`, `schedule.every().monday.at(...)`,
`schedule.run_pending()`), whose code is not part of the repository; those
parts are modelled from the specification and are marked
`Modelled from the spec:` in their doc comments.

Strings from the source (ids, schedule times, messages) are handled through
explicit character-list helpers so that everything evaluates inside the
kernel; French diacritics and apostrophes in the printed messages are
transliterated to plain ASCII.
-/

namespace Scheduler

/-! ## Character-level string helpers -/

/-- Whitespace test used by the trim / split helpers (models Python
whitespace handling on console input). -/
def isWs (c : Char) : Bool := c = ' ' || c = '\t' || c = '\n' || c = '\r'

/-- Drop whitespace from both ends of a character list. -/
def trimChars (cs : List Char) : List Char :=
  ((cs.dropWhile isWs).reverse.dropWhile isWs).reverse

/-- Python `str.strip()` on a string. -/
def strTrim (s : String) : String := String.mk (trimChars s.data)

/-- Python `str.lower()` on a string. -/
def strLower (s : String) : String := String.mk (s.data.map Char.toLower)

/-- Python `str.split()` (split on whitespace, dropping empty pieces). -/
def splitWs (s : String) : List String :=
  ((s.data.splitOnP isWs).filter (fun p => p ≠ [])).map String.mk

/-- Split a character list at every colon. -/
def splitOnColon : List Char → List (List Char)
  | [] => [[]]
  | c :: cs =>
    let rest := splitOnColon cs
    if c = ':' then [] :: rest
    else match rest with
      | [] => [[c]]
      | p :: ps => (c :: p) :: ps

/-- Parse a non-empty all-digit character list as a decimal number. -/
def digitsToNat : List Char → Option Nat
  | [] => none
  | cs => go cs 0
where
  go : List Char → Nat → Option Nat
    | [], acc => some acc
    | c :: cs, acc => if c.isDigit then go cs (acc * 10 + (c.toNat - 48)) else none

/-! ## Data model -/

/-- One job record as stored in the YAML task list (`tasks.yml`).
`recurrence` is `none` when the YAML record omits the key; every consumer
in the source reads it with `task.get("recurrence", "daily")`. -/
structure Task where
  id : String
  name : String
  command : String
  args : List String
  schedule : String
  recurrence : Option String
deriving DecidableEq

/-- The persisted YAML store, as `load_tasks` can observe it:
the file is absent, the YAML text does not parse, the document parses
to `None`, or it parses to a document carrying a task list
(`data.get("tasks", [])`; a parsed document without the `tasks` key is
`parsed []`). -/
inductive StoreFile where
  | missing
  | unparseable
  | parsedNone
  | parsed (tasks : List Task)
deriving DecidableEq

/-- `load_tasks` (scheduler.py:12-24): returns the task list together with a
flag recording whether the YAML-parse warning was printed.  A missing file,
a `None` document, and a parse error all yield the empty list; only the
parse error prints the warning, and none of the cases raises. -/
def load_tasks : StoreFile → List Task × Bool
  | .missing => ([], false)
  | .unparseable => ([], true)
  | .parsedNone => ([], false)
  | .parsed ts => (ts, false)

/-! ## Store mutation -/

/-- Outcome reported by the interactive add operation. -/
inductive AddOutcome where
  | duplicateId
  | added
deriving DecidableEq

/-- The raw console answers consumed by `add_task_interactive`, in prompt
order. -/
structure AddInputs where
  rawId : String
  rawName : String
  rawCommand : String
  rawArgs : String
  rawSchedule : String
  rawRecurrence : String
deriving DecidableEq

/-- `add_task_interactive` (scheduler.py:45-69).  Returns the reported
outcome together with the list handed to `write_tasks`, or `none` when no
write happens (the duplicate-id branch returns before writing). -/
def add_task_interactive (store : StoreFile) (inp : AddInputs) :
    AddOutcome × Option (List Task) :=
  let tasks := (load_tasks store).1
  let id := strTrim inp.rawId
  if tasks.any (fun task => task.id = id) then
    (.duplicateId, none)
  else
    let recurrence0 := strTrim inp.rawRecurrence
    let recurrence := if recurrence0 = "" then "daily" else recurrence0
    let new_task : Task :=
      { id := id
        name := strTrim inp.rawName
        command := strTrim inp.rawCommand
        args := splitWs inp.rawArgs
        schedule := strTrim inp.rawSchedule
        recurrence := some (strLower recurrence) }
    (.added, some (tasks ++ [new_task]))

/-- Outcome reported by the remove operation. -/
inductive RemoveOutcome where
  | notFound
  | removed
deriving DecidableEq

/-- `remove_task` (scheduler.py:71-79).  Keeps every task whose id differs
from the target; when nothing was dropped it reports not-found and does not
write, otherwise it writes the filtered list. -/
def remove_task (store : StoreFile) (task_id : String) :
    RemoveOutcome × Option (List Task) :=
  let tasks := (load_tasks store).1
  let new_tasks := tasks.filter (fun task => task.id ≠ task_id)
  if new_tasks.length = tasks.length then
    (.notFound, none)
  else
    (.removed, some new_tasks)

/-! ## Executor -/

/-- Modelled from the spec: the observable outcome of
`subprocess.run([command] + args, check=True)` for one job — the child
exits zero, exits non-zero (`CalledProcessError`), or fails to launch at
all (e.g. `FileNotFoundError` for a missing command path). The subprocess
machinery itself is outside the repository. -/
inductive LaunchOutcome where
  | exitZero
  | exitNonZero (code : Int)
  | launchError (msg : String)
deriving DecidableEq

/-- The Executor result contract: success flag plus optional error detail
(the message the source prints on the failing branches). -/
structure ExecResult where
  success : Bool
  error_detail : Option String
deriving DecidableEq

/-- `run_task` (scheduler.py:81-92), parametrised by the launch behaviour
of the environment.  Both `except` arms catch the fault and print a
message; nothing propagates.  The printed messages are recorded as
`error_detail` (ASCII transliteration of the French text). -/
def run_task (launch : Task → LaunchOutcome) (task : Task) : ExecResult :=
  match launch task with
  | .exitZero => { success := true, error_detail := none }
  | .exitNonZero code =>
      { success := false
        error_detail :=
          some ("Erreur lors de l execution de la tache : exit status " ++ toString code) }
  | .launchError msg =>
      { success := false, error_detail := some ("Exception : " ++ msg) }

/-! ## Recurrence rules and registration -/

/-- The recurrence rule built by registration: `schedule.every().day.at(...)`
or `schedule.every().monday.at(...)` (the source hardcodes Monday for every
weekly task, scheduler.py:109). -/
inductive Rule where
  | daily (h m : Nat)
  | weeklyMonday (h m : Nat)
deriving DecidableEq

/-- A job registered with the scheduling engine. -/
structure SJob where
  task : Task
  rule : Rule
deriving DecidableEq

/-- One per-task registration event printed by `schedule_tasks`. -/
inductive RegEvent where
  | scheduledDaily (id : String) (h m : Nat)
  | scheduledWeekly (id : String) (h m : Nat)
  | scheduleError (id : String)
  | invalidRecurrence (id : String) (rec : String)
deriving DecidableEq

/-- `task.get("recurrence", "daily").lower()` (scheduler.py:98). -/
def recurrenceOf (task : Task) : String := strLower (task.recurrence.getD "daily")

/-- Modelled from the spec: the schedule library's `at(time_str)` parser,
which is not part of the repository.  Per the spec the time format is
`HH:MM`, 24-hour; anything else makes `at()` raise, which the source
catches per task (scheduler.py:104-105 and 111-112). -/
def parseHM (s : String) : Option (Nat × Nat) :=
  match splitOnColon s.data with
  | [hs, ms] =>
    match digitsToNat hs, digitsToNat ms with
    | some h, some m => if h < 24 then if m < 60 then some (h, m) else none else none
    | _, _ => none
  | _ => none

/-- Registration of a single task (one iteration of the loop in
`schedule_tasks`, scheduler.py:97-114): the printed event, plus the
registered job when registration succeeds. -/
def scheduleOne (task : Task) : RegEvent × Option SJob :=
  let recurrence := recurrenceOf task
  if recurrence = "daily" then
    match parseHM task.schedule with
    | some (h, m) => (.scheduledDaily task.id h m, some ⟨task, .daily h m⟩)
    | none => (.scheduleError task.id, none)
  else if recurrence = "weekly" then
    match parseHM task.schedule with
    | some (h, m) => (.scheduledWeekly task.id h m, some ⟨task, .weeklyMonday h m⟩)
    | none => (.scheduleError task.id, none)
  else
    (.invalidRecurrence task.id recurrence, none)

/-- `schedule_tasks` (scheduler.py:94-114): the registration events in task
order and the list of successfully registered jobs in task order. -/
def schedule_tasks (tasks : List Task) : List RegEvent × List SJob :=
  (tasks.map (fun task => (scheduleOne task).1),
   tasks.filterMap (fun task => (scheduleOne task).2))

/-! ## Time model

Modelled from the spec: wall-clock time for the tick loop, as seconds
since a reference midnight; day 0 of the epoch is a Monday, and weekdays
are numbered as in Python (`Monday = 0`). -/

/-- Calendar day index of a timestamp. -/
def dayOf (t : Nat) : Nat := t / 86400

/-- Second within the day. -/
def secondOfDay (t : Nat) : Nat := t % 86400

/-- Hour of day (0-23). -/
def hourOf (t : Nat) : Nat := secondOfDay t / 3600

/-- Minute within the hour (0-59). -/
def minuteOf (t : Nat) : Nat := secondOfDay t % 3600 / 60

/-- Weekday, Python numbering: Monday = 0. -/
def weekdayOf (t : Nat) : Nat := dayOf t % 7

/-- Modelled from the spec: `matches(rule, now)` of the schedule library
(not in the repository) at minute granularity — a daily rule matches any
timestamp inside its `HH:MM` minute, a weekly rule additionally requires
the weekday to be Monday. -/
def Rule.matches : Rule → Nat → Bool
  | .daily h m, t => decide (hourOf t = h ∧ minuteOf t = m)
  | .weeklyMonday h m, t => decide (weekdayOf t = 0 ∧ hourOf t = h ∧ minuteOf t = m)

/-- Modelled from the spec: the Occurrence key of a rule at a timestamp —
job date plus scheduled time (`(day, hour, minute)` bucket). -/
def Rule.occKey : Rule → Nat → Nat × Nat × Nat
  | .daily h m, t => (dayOf t, h, m)
  | .weeklyMonday h m, t => (dayOf t, h, m)

/-! ## Occurrence tracker and tick loop -/

/-- Modelled from the spec: one Occurrence-Tracker step for one job.  The
state is the last fired occurrence key; the job fires iff its rule matches
`now` and the current occurrence key was not already fired. -/
def tickOnce (r : Rule) (st : Option (Nat × Nat × Nat)) (now : Nat) :
    Option (Nat × Nat × Nat) × Bool :=
  if r.matches now ∧ st ≠ some (r.occKey now) then (some (r.occKey now), true)
  else (st, false)

/-- Number of Executor invocations for one job across a list of tick
timestamps, starting from tracker state `st`. -/
def countFires (r : Rule) (st : Option (Nat × Nat × Nat)) : List Nat → Nat
  | [] => 0
  | t :: ts =>
    let p := tickOnce r st t
    (if p.2 then 1 else 0) + countFires r p.1 ts

/-- The tick timestamps of a window of `n` one-second samples starting at
`t0`. -/
def window (t0 n : Nat) : List Nat := (List.range n).map (fun i => t0 + i)

/-- Engine state: every registered job paired with its tracker state. -/
abbrev EngineState := List (SJob × Option (Nat × Nat × Nat))

/-- Modelled from the spec: `schedule.run_pending()` for one tick — every
registered job is evaluated in registration order; each job that is due
and not yet fired for this occurrence is dispatched to the Executor, and
the per-job dispatch results are collected.  Dispatch of later jobs does
not depend on earlier results (`run_task` never raises). -/
def run_pending (launch : Task → LaunchOutcome) (now : Nat) :
    EngineState → EngineState × List (Task × ExecResult)
  | [] => ([], [])
  | (j, st) :: rest =>
    let s := tickOnce j.rule st now
    let r := run_pending launch now rest
    ((j, s.1) :: r.1, (if s.2 then [(j.task, run_task launch j.task)] else []) ++ r.2)

/-- The tick loop body iterated over a list of sampled timestamps. -/
def loopTicks (launch : Task → LaunchOutcome) :
    EngineState → List Nat → List (Task × ExecResult)
  | _, [] => []
  | st, t :: ts =>
    let p := run_pending launch t st
    p.2 ++ loopTicks launch p.1 ts

/-- `run_scheduler_loop` (scheduler.py:116-125) over the finite list of
timestamps the 1-second poll loop samples before the interrupt: registers
the loaded jobs (initially unfired) and runs `run_pending` at each sample,
returning every Executor dispatch in order. -/
def run_scheduler_loop (jobs : List SJob) (launch : Task → LaunchOutcome)
    (ticks : List Nat) : List (Task × ExecResult) :=
  loopTicks launch (jobs.map (fun j => (j, none))) ticks

/-! ## Test command and CLI -/

/-- `test_task` (scheduler.py:127-135): linear scan for the first task with
the given id; that task is run immediately (no recurrence or schedule
validation on this path); `none` when no id matches. -/
def test_task (tasks : List Task) (task_id : String)
    (launch : Task → LaunchOutcome) : Option (Task × ExecResult) :=
  match tasks with
  | [] => none
  | task :: rest =>
    if task.id = task_id then some (task, run_task launch task)
    else test_task rest task_id launch

/-- The CLI sub-commands accepted by `main` (scheduler.py:139). -/
inductive Cmd where
  | run
  | list
  | add
  | remove
  | test
deriving DecidableEq

/-- Python truthiness of the optional `--id` argument (`not args.id` is
taken when the argument is absent or empty). -/
def idTruthy : Option String → Bool
  | none => false
  | some s => decide (s ≠ "")

/-- What one `main` invocation does: process exit code, every list handed
to `write_tasks`, and every Executor dispatch. -/
structure MainResult where
  exitCode : Nat
  writes : List (List Task)
  executions : List (Task × ExecResult)
deriving DecidableEq

/-- `main` (scheduler.py:137-158).  `store` is the persisted store the
process observes, `inp` the console answers for `add`, `launch` the
environment's process behaviour, and `ticks` the timestamps the `run`
loop samples before the keyboard interrupt. -/
def main (cmd : Cmd) (idArg : Option String) (store : StoreFile)
    (inp : AddInputs) (launch : Task → LaunchOutcome) (ticks : List Nat) :
    MainResult :=
  match cmd with
  | .list => { exitCode := 0, writes := [], executions := [] }
  | .add =>
    let p := add_task_interactive store inp
    { exitCode := 0, writes := p.2.toList, executions := [] }
  | .remove =>
    if idTruthy idArg then
      let p := remove_task store (idArg.getD "")
      { exitCode := 0, writes := p.2.toList, executions := [] }
    else
      { exitCode := 1, writes := [], executions := [] }
  | .test =>
    if idTruthy idArg then
      match test_task (load_tasks store).1 (idArg.getD "") launch with
      | some e => { exitCode := 0, writes := [], executions := [e] }
      | none => { exitCode := 0, writes := [], executions := [] }
    else
      { exitCode := 1, writes := [], executions := [] }
  | .run =>
    let jobs := (schedule_tasks (load_tasks store).1).2
    { exitCode := 0, writes := [],
      executions := run_scheduler_loop jobs launch ticks }

end Scheduler

namespace Scheduler

/-! ## Store-operation claims -/

/-- Claim C5: an add operation whose new record id (the stripped console
input) equals the id of some record already in the store reports a
duplicate id and performs no write, so the persisted store is untouched. -/
theorem add_duplicate_id_no_write (store : StoreFile) (inp : AddInputs)
    (hdup : ∃ t ∈ (load_tasks store).1, t.id = strTrim inp.rawId) :
    add_task_interactive store inp = (.duplicateId, none) := by
  obtain ⟨t, ht, hid⟩ := hdup
  have hany : (load_tasks store).1.any
      (fun task => task.id = strTrim inp.rawId) = true :=
    List.any_eq_true.mpr ⟨t, ht, by simp [hid]⟩
  simp [add_task_interactive, hany]

/-- Witness for Claim C5 at a concrete store and console input. -/
theorem add_duplicate_id_no_write_witness :
    add_task_interactive
      (.parsed [⟨"backup", "n", "/bin/true", [], "02:00", some "daily"⟩])
      ⟨" backup ", "other", "/bin/false", "", "03:00", "daily"⟩ =
      (.duplicateId, none) :=
  add_duplicate_id_no_write
    (.parsed [⟨"backup", "n", "/bin/true", [], "02:00", some "daily"⟩])
    ⟨" backup ", "other", "/bin/false", "", "03:00", "daily"⟩
    (by decide)

/-- Claim C6: a remove operation whose target id matches no stored record
reports not-found and performs no write. -/
theorem remove_unknown_id_no_write (store : StoreFile) (task_id : String)
    (hnone : ∀ t ∈ (load_tasks store).1, t.id ≠ task_id) :
    remove_task store task_id = (.notFound, none) := by
  simp [remove_task]
  intro x hx
  exact hnone x hx

/-- Witness for Claim C6 at a concrete store. -/
theorem remove_unknown_id_no_write_witness :
    remove_task (.parsed [⟨"backup", "n", "/bin/true", [], "02:00", some "daily"⟩])
      "nope" = (.notFound, none) :=
  remove_unknown_id_no_write
    (.parsed [⟨"backup", "n", "/bin/true", [], "02:00", some "daily"⟩])
    "nope" (by decide)

/-- Claim C9: removing an id that is present deletes every record carrying
that id; what gets written is exactly the stored list filtered to the
records with a different id, in their original relative order. -/
theorem remove_existing_id_filters_all (store : StoreFile) (task_id : String)
    (hmem : ∃ t ∈ (load_tasks store).1, t.id = task_id) :
    remove_task store task_id =
      (.removed, some ((load_tasks store).1.filter (fun task => task.id ≠ task_id))) := by
  obtain ⟨t, ht, hid⟩ := hmem
  simp [remove_task]
  exact ⟨t, ht, hid⟩

end Scheduler

namespace Scheduler

/-- Witness for Claim C9: removing id "a" from a store where it occurs
twice drops both occurrences and keeps the other record. -/
theorem remove_existing_id_filters_all_witness :
    remove_task
      (.parsed [⟨"a", "n1", "/bin/x", [], "01:00", some "daily"⟩,
                ⟨"b", "n2", "/bin/y", [], "02:00", some "daily"⟩,
                ⟨"a", "n3", "/bin/z", [], "03:00", some "weekly"⟩])
      "a" =
      (.removed, some ((load_tasks
        (.parsed [⟨"a", "n1", "/bin/x", [], "01:00", some "daily"⟩,
                  ⟨"b", "n2", "/bin/y", [], "02:00", some "daily"⟩,
                  ⟨"a", "n3", "/bin/z", [], "03:00", some "weekly"⟩])).1.filter
        (fun task => task.id ≠ "a"))) :=
  remove_existing_id_filters_all
    (.parsed [⟨"a", "n1", "/bin/x", [], "01:00", some "daily"⟩,
              ⟨"b", "n2", "/bin/y", [], "02:00", some "daily"⟩,
              ⟨"a", "n3", "/bin/z", [], "03:00", some "weekly"⟩])
    "a" (by decide)

/-- Claim C7: loading a missing store yields the empty task list without
raising, and loading an unparseable store yields the empty task list and
prints the parse warning. -/
theorem load_tasks_missing_or_corrupt_empty :
    load_tasks .missing = ([], false) ∧ load_tasks .unparseable = ([], true) :=
  ⟨rfl, rfl⟩

/-- Claim C10: the test command runs the first stored record whose id
matches, handing it straight to the Executor — no recurrence or schedule
validation happens on this path, so an unsupported recurrence or a
malformed schedule time does not stop the run, and only the first match is
executed. -/
theorem test_task_runs_first_match_unvalidated (tasks : List Task)
    (task_id : String) (launch : Task → LaunchOutcome) (t : Task)
    (hfind : tasks.find? (fun x => x.id = task_id) = some t) :
    test_task tasks task_id launch = some (t, run_task launch t) := by
  induction tasks with
  | nil => simp at hfind
  | cons a rest ih =>
    by_cases ha : a.id = task_id
    · rw [List.find?_cons_of_pos _ (by simp [ha])] at hfind
      cases hfind
      simp [test_task, ha]
    · rw [List.find?_cons_of_neg _ (by simp [ha])] at hfind
      simp [test_task, ha]
      exact ih hfind

/-- Witness for Claim C10: the first of two records with id "x" has an
unsupported recurrence and a malformed schedule time, and is the one
executed. -/
theorem test_task_runs_first_match_unvalidated_witness :
    test_task [⟨"x", "n1", "/bin/x", [], "25:99", some "monthly"⟩,
               ⟨"x", "n2", "/bin/y", [], "02:00", some "daily"⟩]
      "x" (fun _ => .exitZero) =
      some (⟨"x", "n1", "/bin/x", [], "25:99", some "monthly"⟩,
        run_task (fun _ => .exitZero) ⟨"x", "n1", "/bin/x", [], "25:99", some "monthly"⟩) :=
  test_task_runs_first_match_unvalidated
    [⟨"x", "n1", "/bin/x", [], "25:99", some "monthly"⟩,
     ⟨"x", "n2", "/bin/y", [], "02:00", some "daily"⟩]
    "x" (fun _ => .exitZero)
    ⟨"x", "n1", "/bin/x", [], "25:99", some "monthly"⟩ (by decide)

/-- Claim C8: a remove or test invocation without the `--id` argument
exits with code 1 and performs no store write and no job execution. -/
theorem missing_id_exits_nonzero (cmd : Cmd) (store : StoreFile)
    (inp : AddInputs) (launch : Task → LaunchOutcome) (ticks : List Nat)
    (hcmd : cmd = Cmd.remove ∨ cmd = Cmd.test) :
    main cmd none store inp launch ticks =
      { exitCode := 1, writes := [], executions := [] } := by
  rcases hcmd with h | h <;> subst h <;> rfl

/-- Witness for Claim C8 at the remove command and a concrete store. -/
theorem missing_id_exits_nonzero_witness :
    main Cmd.remove none
      (.parsed [⟨"a", "n", "/bin/x", [], "01:00", some "daily"⟩])
      ⟨"", "", "", "", "", ""⟩ (fun _ => .exitZero) [0, 1, 2] =
      { exitCode := 1, writes := [], executions := [] } :=
  missing_id_exits_nonzero Cmd.remove
    (.parsed [⟨"a", "n", "/bin/x", [], "01:00", some "daily"⟩])
    ⟨"", "", "", "", "", ""⟩ (fun _ => .exitZero) [0, 1, 2] (Or.inl rfl)

end Scheduler

namespace Scheduler

/-! ## Executor claims -/

/-- A string with a non-empty prefix is not the empty string. -/
theorem append_ne_empty (a b : String) (ha : a.data ≠ []) : a ++ b ≠ "" := by
  intro h
  have hd := congrArg String.data h
  rw [String.data_append] at hd
  exact ha (List.append_eq_nil.mp (by simpa using hd)).1

/-- Which jobs one tick dispatches does not depend on the Executor
outcomes: `run_task` never raises, so a failing job cannot stop the
dispatch of the jobs after it. -/
theorem run_pending_dispatch_independent (launch launch2 : Task → LaunchOutcome)
    (now : Nat) (st : EngineState) :
    ((run_pending launch now st).2).map Prod.fst =
      ((run_pending launch2 now st).2).map Prod.fst := by
  induction st with
  | nil => rfl
  | cons p rest ih =>
    obtain ⟨j, s⟩ := p
    by_cases hf : (tickOnce j.rule s now).2 <;> simp [run_pending, hf, ih]

/-- Claim C4: a job whose command path does not exist (launch failure) or
whose child exits non-zero gets `success = false` with a non-empty
`error_detail`; the fault is captured in the returned result rather than
raised, and the tick goes on to dispatch the remaining due jobs exactly as
it would had the job succeeded. -/
theorem run_task_failure_captured (launch : Task → LaunchOutcome)
    (task : Task) (now : Nat) (st : EngineState)
    (hfail : (∃ c, launch task = .exitNonZero c) ∨
      ∃ msg, launch task = .launchError msg) :
    (run_task launch task).success = false ∧
    (∃ s, (run_task launch task).error_detail = some s ∧ s ≠ "") ∧
    ((run_pending launch now st).2).map Prod.fst =
      ((run_pending (fun _ => .exitZero) now st).2).map Prod.fst := by
  refine ⟨?_, ?_, run_pending_dispatch_independent launch _ now st⟩
  · rcases hfail with ⟨c, hc⟩ | ⟨msg, hmsg⟩
    · simp [run_task, hc]
    · simp [run_task, hmsg]
  · rcases hfail with ⟨c, hc⟩ | ⟨msg, hmsg⟩
    · exact ⟨"Erreur lors de l execution de la tache : exit status " ++ toString c,
        by simp [run_task, hc],
        append_ne_empty "Erreur lors de l execution de la tache : exit status "
          (toString c) (by decide)⟩
    · exact ⟨"Exception : " ++ msg, by simp [run_task, hmsg],
        append_ne_empty "Exception : " msg (by decide)⟩

/-- Witness for Claim C4: a missing command path
(`FileNotFoundError`-style launch failure) yields a failed result. -/
theorem run_task_failure_captured_witness :
    (run_task (fun _ => .launchError "No such file or directory")
      ⟨"a", "n", "/definitely/not/there", [], "01:00", some "daily"⟩).success = false :=
  (run_task_failure_captured (fun _ => .launchError "No such file or directory")
    ⟨"a", "n", "/definitely/not/there", [], "01:00", some "daily"⟩ 0 []
    (Or.inr ⟨"No such file or directory", rfl⟩)).1

/-! ## Registration claims -/

/-- Inversion of a successful single-task registration: the job carries
the task itself, and its rule mirrors the task's recurrence string. -/
theorem scheduleOne_inv (task : Task) (j : SJob)
    (hj : (scheduleOne task).2 = some j) :
    j.task = task ∧
    ((recurrenceOf task = "daily" ∧ ∃ h m, parseHM task.schedule = some (h, m) ∧
        j.rule = .daily h m) ∨
     (recurrenceOf task = "weekly" ∧ ∃ h m, parseHM task.schedule = some (h, m) ∧
        j.rule = .weeklyMonday h m)) := by
  unfold scheduleOne at hj
  by_cases hd : recurrenceOf task = "daily"
  · rw [if_pos hd] at hj
    rcases hp : parseHM task.schedule with _ | ⟨h, m⟩
    · rw [hp] at hj; cases hj
    · rw [hp] at hj
      cases hj
      exact ⟨rfl, Or.inl ⟨hd, h, m, rfl, rfl⟩⟩
  · rw [if_neg hd] at hj
    by_cases hw : recurrenceOf task = "weekly"
    · rw [if_pos hw] at hj
      rcases hp : parseHM task.schedule with _ | ⟨h, m⟩
      · rw [hp] at hj; cases hj
      · rw [hp] at hj
        cases hj
        exact ⟨rfl, Or.inr ⟨hw, h, m, rfl, rfl⟩⟩
    · rw [if_neg hw] at hj
      cases hj

/-- Claim C3: a registered job whose task has `recurrence="weekly"` never
matches on a weekday other than Monday, whatever the time of day — the
source registers every weekly task on Monday. -/
theorem weekly_matches_only_monday (tasks : List Task) (j : SJob) (t : Nat)
    (hj : j ∈ (schedule_tasks tasks).2)
    (hrec : recurrenceOf j.task = "weekly")
    (hwd : weekdayOf t ≠ 0) :
    j.rule.matches t = false := by
  obtain ⟨task, _, hs⟩ := List.mem_filterMap.mp hj
  obtain ⟨htask, hcase⟩ := scheduleOne_inv task j hs
  rcases hcase with ⟨hd, _⟩ | ⟨_, h, m, _, hrule⟩
  · rw [htask] at hrec
    rw [hrec] at hd
    exact absurd hd (by decide)
  · rw [hrule]
    simp [Rule.matches, hwd]

/-- Witness for Claim C3: the weekly job registered from a one-task store
does not match on day 1 of the epoch (a Tuesday) at its own schedule
time. -/
theorem weekly_matches_only_monday_witness :
    (⟨⟨"w", "n", "/bin/x", [], "10:00", some "weekly"⟩,
      Rule.weeklyMonday 10 0⟩ : SJob).rule.matches (86400 + 36000) = false :=
  weekly_matches_only_monday
    [⟨"w", "n", "/bin/x", [], "10:00", some "weekly"⟩]
    ⟨⟨"w", "n", "/bin/x", [], "10:00", some "weekly"⟩, Rule.weeklyMonday 10 0⟩
    (86400 + 36000) (by decide) (by decide) (by decide)

end Scheduler

namespace Scheduler

/-- One tick leaves the list of registered tasks unchanged (only tracker
state mutates). -/
theorem run_pending_tasks_preserved (launch : Task → LaunchOutcome)
    (now : Nat) (st : EngineState) :
    ((run_pending launch now st).1).map (fun q => q.1.task) =
      st.map (fun q => q.1.task) := by
  induction st with
  | nil => rfl
  | cons p rest ih =>
    obtain ⟨j, s⟩ := p
    simp [run_pending, ih]

/-- Every task dispatched in one tick is the task of some registered
job. -/
theorem run_pending_exec_registered (launch : Task → LaunchOutcome)
    (now : Nat) (st : EngineState) (p : Task × ExecResult)
    (hp : p ∈ (run_pending launch now st).2) :
    p.1 ∈ st.map (fun q => q.1.task) := by
  induction st with
  | nil => cases hp
  | cons q rest ih =>
    obtain ⟨j, s⟩ := q
    by_cases hf : (tickOnce j.rule s now).2
    · simp [run_pending, hf] at hp
      rcases hp with hp | hp
      · simp [hp]
      · simp [ih hp]
    · simp [run_pending, hf] at hp
      simp [ih hp]

/-- Every task dispatched across any run of the tick loop is the task of
some registered job. -/
theorem loopTicks_exec_registered (launch : Task → LaunchOutcome)
    (ticks : List Nat) (st : EngineState) (p : Task × ExecResult)
    (hp : p ∈ loopTicks launch st ticks) :
    p.1 ∈ st.map (fun q => q.1.task) := by
  induction ticks generalizing st with
  | nil => cases hp
  | cons t ts ih =>
    simp only [loopTicks, List.mem_append] at hp
    rcases hp with hp | hp
    · exact run_pending_exec_registered launch t st p hp
    · have := ih _ hp
      rwa [run_pending_tasks_preserved] at this

/-- Claim C2 (amended): a record whose recurrence string is neither
"daily" nor "weekly" yields the invalid-recurrence registration error, is
never registered, and never fires on any tick of the loop; and every
other record of the batch whose recurrence is valid and whose schedule
time parses as HH:MM is still registered successfully.  (The amendment:
a record with a valid recurrence but an unparseable schedule time is
also rejected at registration — see
`valid_recurrence_not_always_registered`.) -/
theorem invalid_recurrence_rejected_and_excluded (tasks : List Task)
    (t : Task) (hmem : t ∈ tasks)
    (hd : recurrenceOf t ≠ "daily") (hw : recurrenceOf t ≠ "weekly") :
    RegEvent.invalidRecurrence t.id (recurrenceOf t) ∈ (schedule_tasks tasks).1 ∧
    (∀ j ∈ (schedule_tasks tasks).2, j.task ≠ t) ∧
    (∀ launch ticks, ∀ p ∈ run_scheduler_loop (schedule_tasks tasks).2 launch ticks,
      p.1 ≠ t) ∧
    (∀ t2 ∈ tasks, ∀ h m, parseHM t2.schedule = some (h, m) →
      (recurrenceOf t2 = "daily" ∨ recurrenceOf t2 = "weekly") →
      ∃ j ∈ (schedule_tasks tasks).2, j.task = t2) := by
  have hexcl : ∀ j ∈ (schedule_tasks tasks).2, j.task ≠ t := by
    intro j hj heq
    obtain ⟨t2, _, hs⟩ := List.mem_filterMap.mp hj
    obtain ⟨htj, hcase⟩ := scheduleOne_inv t2 j hs
    rcases hcase with ⟨hv, _⟩ | ⟨hv, _⟩
    · rw [htj] at heq
      rw [heq] at hv
      exact hd hv
    · rw [htj] at heq
      rw [heq] at hv
      exact hw hv
  refine ⟨?_, hexcl, ?_, ?_⟩
  · apply List.mem_map.mpr
    refine ⟨t, hmem, ?_⟩
    simp [scheduleOne, hd, hw]
  · intro launch ticks p hp heq
    have hreg := loopTicks_exec_registered launch ticks _ p hp
    rw [List.map_map] at hreg
    obtain ⟨j, hj, hjt⟩ := List.mem_map.mp hreg
    have hj2 : j ∈ (schedule_tasks tasks).2 := by
      simpa using hj
    exact hexcl j hj2 (by simpa [heq] using hjt)
  · intro t2 hmem2 h m hp hvalid
    rcases hvalid with hv | hv
    · refine ⟨⟨t2, .daily h m⟩, List.mem_filterMap.mpr ⟨t2, hmem2, ?_⟩, rfl⟩
      simp [scheduleOne, hv, hp]
    · refine ⟨⟨t2, .weeklyMonday h m⟩, List.mem_filterMap.mpr ⟨t2, hmem2, ?_⟩, rfl⟩
      simp [scheduleOne, hv, hp]

/-- The invalid-recurrence record of the concrete C2 batch. -/
def monthlyTask : Task := ⟨"m1", "m", "/bin/x", [], "09:00", some "monthly"⟩

/-- A record with a valid recurrence but an unparseable schedule time. -/
def badTimeTask : Task := ⟨"d1", "d", "/bin/y", [], "9h00", some "daily"⟩

/-- A fully well-formed daily record. -/
def goodTask : Task := ⟨"g1", "g", "/bin/z", [], "09:30", some "daily"⟩

/-- Counterexample to Claim C2 as stated: in the batch
`[monthlyTask, badTimeTask]`, the record `badTimeTask` has the valid
recurrence "daily", yet the registration event list shows it rejected
(its schedule time "9h00" makes `at()` raise) and no job at all is
registered — a valid-recurrence record in the same batch is not
registered successfully. -/
theorem valid_recurrence_not_always_registered :
    recurrenceOf badTimeTask = "daily" ∧
    (schedule_tasks [monthlyTask, badTimeTask]).1 =
      [.invalidRecurrence "m1" "monthly", .scheduleError "d1"] ∧
    (schedule_tasks [monthlyTask, badTimeTask]).2 = [] := by
  decide

/-- Witness for the amended Claim C2 at a concrete two-record batch. -/
theorem invalid_recurrence_rejected_and_excluded_witness :
    RegEvent.invalidRecurrence monthlyTask.id (recurrenceOf monthlyTask) ∈
      (schedule_tasks [monthlyTask, goodTask]).1 :=
  (invalid_recurrence_rejected_and_excluded [monthlyTask, goodTask] monthlyTask
    (by decide) (by decide) (by decide)).1

end Scheduler

namespace Scheduler

/-! ## Occurrence-tracker dedup (Claim C1) -/

/-- A matching, not-yet-fired tick fires and records the occurrence. -/
theorem tickOnce_fires (r : Rule) (st : Option (Nat × Nat × Nat)) (t : Nat)
    (hm : r.matches t = true) (hst : st ≠ some (r.occKey t)) :
    tickOnce r st t = (some (r.occKey t), true) := by
  simp [tickOnce, hm, hst]

/-- A tick whose occurrence already fired is suppressed. -/
theorem tickOnce_suppressed (r : Rule) (t : Nat) :
    tickOnce r (some (r.occKey t)) t = (some (r.occKey t), false) := by
  simp [tickOnce]

/-- A non-matching tick does nothing. -/
theorem tickOnce_no_match (r : Rule) (st : Option (Nat × Nat × Nat)) (t : Nat)
    (hm : r.matches t = false) :
    tickOnce r st t = (st, false) := by
  simp [tickOnce, hm]

/-- Once the common occurrence key has fired, no tick of a window whose
matches all share that key fires again. -/
theorem countFires_suppressed (r : Rule) (K : Nat × Nat × Nat) :
    ∀ ts : List Nat,
      (∀ t ∈ ts, r.matches t = true → r.occKey t = K) →
      countFires r (some K) ts = 0 := by
  intro ts
  induction ts with
  | nil => intro _; rfl
  | cons t ts ih =>
    intro hall
    have htail : ∀ u ∈ ts, r.matches u = true → r.occKey u = K :=
      fun u hu => hall u (List.mem_cons_of_mem _ hu)
    by_cases hm : r.matches t = true
    · have hk := hall t (List.mem_cons_self t ts) hm
      simp only [countFires]
      rw [← hk, tickOnce_suppressed r t]
      simpa [hk] using ih htail
    · simp only [countFires]
      rw [tickOnce_no_match r _ t (by simpa using hm)]
      simpa using ih htail

/-- Dedup property of the Occurrence Tracker: over any tick list whose
matching ticks all share the same occurrence key, a job whose tracker has
not yet fired that key fires exactly once as soon as one tick matches. -/
theorem countFires_fires_once (r : Rule) (K : Nat × Nat × Nat) :
    ∀ (ts : List Nat) (st : Option (Nat × Nat × Nat)),
      (∀ t ∈ ts, r.matches t = true → r.occKey t = K) →
      st ≠ some K →
      (∃ t ∈ ts, r.matches t = true) →
      countFires r st ts = 1 := by
  intro ts
  induction ts with
  | nil =>
    intro st _ _ hex
    obtain ⟨t, ht, _⟩ := hex
    cases ht
  | cons t ts ih =>
    intro st hall hst hex
    have htail : ∀ u ∈ ts, r.matches u = true → r.occKey u = K :=
      fun u hu => hall u (List.mem_cons_of_mem _ hu)
    by_cases hm : r.matches t = true
    · have hk := hall t (List.mem_cons_self t ts) hm
      simp only [countFires]
      rw [tickOnce_fires r st t hm (by rw [hk]; exact hst)]
      have h0 : countFires r (some (r.occKey t)) ts = 0 := by
        rw [hk]
        exact countFires_suppressed r K ts htail
      simpa using h0
    · simp only [countFires]
      rw [tickOnce_no_match r st t (by simpa using hm)]
      have hex2 : ∃ u ∈ ts, r.matches u = true := by
        obtain ⟨u, hu, hmu⟩ := hex
        rcases List.mem_cons.mp hu with rfl | hu2
        · exact absurd hmu hm
        · exact ⟨u, hu2, hmu⟩
      simpa using ih st htail hst hex2

/-- Membership in the sampling window. -/
theorem mem_window (t0 n t : Nat) : t ∈ window t0 n ↔ t0 ≤ t ∧ t < t0 + n := by
  simp only [window, List.mem_map, List.mem_range]
  constructor
  · rintro ⟨i, hi, rfl⟩
    omega
  · rintro ⟨hl, hr⟩
    exact ⟨t - t0, by omega, by omega⟩

/-- A successfully parsed schedule time is a valid 24-hour HH:MM pair. -/
theorem parseHM_bounds (s : String) (h m : Nat)
    (hp : parseHM s = some (h, m)) : h < 24 ∧ m < 60 := by
  unfold parseHM at hp
  split at hp
  · split at hp
    · split at hp
      · split at hp
        · cases hp
          exact ⟨by assumption, by assumption⟩
        · cases hp
      · cases hp
    · cases hp
  · cases hp

/-- Every tick of a 70-second window that matches a daily rule whose
scheduled minute starts inside the window carries that minute's
occurrence key. -/
theorem daily_match_in_window_key (h m d t0 t : Nat)
    (_hh : h < 24) (_hm : m < 60)
    (h1 : t0 ≤ 86400 * d + 3600 * h + 60 * m)
    (h2 : 86400 * d + 3600 * h + 60 * m ≤ t0 + 69)
    (ht1 : t0 ≤ t) (ht2 : t ≤ t0 + 69)
    (hmat : (Rule.daily h m).matches t = true) :
    (Rule.daily h m).occKey t = (d, h, m) := by
  have hmat2 : hourOf t = h ∧ minuteOf t = m := by
    simpa [Rule.matches] using hmat
  obtain ⟨hH, hM⟩ := hmat2
  have hday : dayOf t = d := by
    simp only [hourOf, minuteOf, secondOfDay] at hH hM
    unfold dayOf
    omega
  simp [Rule.occKey, hday]

/-- The first second of the scheduled minute matches the daily rule. -/
theorem daily_matches_minute_start (h m d : Nat) (hh : h < 24) (hm : m < 60) :
    (Rule.daily h m).matches (86400 * d + 3600 * h + 60 * m) = true := by
  simp only [Rule.matches, decide_eq_true_eq]
  unfold hourOf minuteOf secondOfDay
  omega

/-- A daily task with a parseable schedule time is registered by
`schedule_tasks` with the corresponding daily rule. -/
theorem daily_registered (tasks : List Task) (task : Task) (h m : Nat)
    (hmem : task ∈ tasks) (hrec : recurrenceOf task = "daily")
    (hp : parseHM task.schedule = some (h, m)) :
    (⟨task, Rule.daily h m⟩ : SJob) ∈ (schedule_tasks tasks).2 :=
  List.mem_filterMap.mpr ⟨task, hmem, by simp [scheduleOne, hrec, hp]⟩

/-- Claim C1: a registered daily job whose single matching minute starts
inside a 70-second window of 1-second ticks fires exactly once across the
window — one Executor invocation, and no second invocation on the later
ticks of the same window. -/
theorem registered_daily_fires_exactly_once (tasks : List Task) (task : Task)
    (h m d t0 : Nat) (hmem : task ∈ tasks)
    (hrec : recurrenceOf task = "daily")
    (hp : parseHM task.schedule = some (h, m))
    (h1 : t0 ≤ 86400 * d + 3600 * h + 60 * m)
    (h2 : 86400 * d + 3600 * h + 60 * m ≤ t0 + 69) :
    (⟨task, Rule.daily h m⟩ : SJob) ∈ (schedule_tasks tasks).2 ∧
    countFires (Rule.daily h m) none (window t0 70) = 1 := by
  obtain ⟨hh, hm60⟩ := parseHM_bounds task.schedule h m hp
  refine ⟨daily_registered tasks task h m hmem hrec hp, ?_⟩
  apply countFires_fires_once (Rule.daily h m) (d, h, m)
  · intro t ht hmt
    rw [mem_window] at ht
    exact daily_match_in_window_key h m d t0 t hh hm60 h1 h2 ht.1 (by omega) hmt
  · simp
  · refine ⟨86400 * d + 3600 * h + 60 * m, ?_,
      daily_matches_minute_start h m d hh hm60⟩
    rw [mem_window]
    omega

/-- Witness for Claim C1: a daily job at 00:01 registered from a one-task
store fires exactly once across the 70 one-second ticks t = 25 .. 94,
a window straddling minute 00:01 of day 0. -/
theorem registered_daily_fires_exactly_once_witness :
    (⟨⟨"backup", "n", "/bin/true", [], "00:01", some "daily"⟩,
      Rule.daily 0 1⟩ : SJob) ∈
      (schedule_tasks [⟨"backup", "n", "/bin/true", [], "00:01", some "daily"⟩]).2 ∧
    countFires (Rule.daily 0 1) none (window 25 70) = 1 :=
  registered_daily_fires_exactly_once
    [⟨"backup", "n", "/bin/true", [], "00:01", some "daily"⟩]
    ⟨"backup", "n", "/bin/true", [], "00:01", some "daily"⟩
    0 1 0 25 (by decide) (by decide) (by decide) (by decide) (by decide)

end Scheduler
